import Mathlib

/-!
Verification of the ib_data_fetcher orchestration layer.

This file shallowly embeds the components of the repository that the
claims C1..C10 are about and proves (or refutes) each claim:

* `src/utils/smart_retry_manager.py` — failure classifier, per-date retry
  counters, per-symbol no-data streak and the `should_skip` latch;
* `src/utils/bar_status_manager.py` — the per-symbol CSV ledger
  (load / upsert, one row per calendar date, sorted ascending);
* `src/utils/date_processor.py` — date planner and per-date processing,
  including the status written to the ledger;
* `src/utils/market_calendar.py` — market schedule and expected bar count;
* `src/utils/validation.py` and `src/utils/bar_validator.py` — the
  five-step day-level validator;
* `src/core/fetcher.py` — status derivation and the rate limiter;
* `src/core/fetcher_job.py` — the scheduler's gating of attempts and the
  arguments it passes to the retry manager.

Conventions: calendar dates are `Nat` day numbers; datetimes are `Nat`
minutes since the epoch, so the day component of a datetime `t` is
`t / 1440`.  Strings are Lean `String`s; Python's `str.lower` is modelled
for ASCII, which covers every keyword the classifier matches.
-/

namespace IBDF

/-! ### Failure classifier (`smart_retry_manager.py`, `classify_failure`) -/

/-- `FailureType` of `smart_retry_manager.py`. -/
inductive FailureType where
  | NO_DATA
  | NETWORK_ERROR
  | API_ERROR
  | VALIDATION_ERROR
  | UNKNOWN
deriving DecidableEq, Repr

/-- ASCII lower-casing of one character, as Python `str.lower` acts on the
ASCII keywords the classifier matches. -/
def lowerChar (c : Char) : Char :=
  if 'A' ≤ c && c ≤ 'Z' then Char.ofNat (c.toNat + 32) else c

/-- `error_message.lower()` as a character list. -/
def lowerStr (s : String) : List Char :=
  s.toList.map lowerChar

/-- Whether `pat` occurs at the head of `s`. -/
def seqStartsWith : List Char → List Char → Bool
  | [], _ => true
  | _ :: _, [] => false
  | p :: ps, c :: cs => p == c && seqStartsWith ps cs

/-- Whether `pat` occurs anywhere in `s` (Python `pat in s`). -/
def seqContains (pat : List Char) : List Char → Bool
  | [] => pat.isEmpty
  | c :: cs => seqStartsWith pat (c :: cs) || seqContains pat cs

/-- `phrase in error_lower` for one keyword. -/
def phraseIn (s : List Char) (pat : String) : Bool :=
  seqContains pat.toList s

/-- `any(phrase in error_lower for phrase in [...])`. -/
def anyPhrase (s : List Char) (pats : List String) : Bool :=
  pats.any (phraseIn s)

/-- Keyword set of the NO_DATA branch (`classify_failure`, lines 103-106). -/
def noDataPhrases : List String :=
  ["no data", "empty", "zero bars", "no bars returned",
   "no historical data", "data not available"]

/-- Keyword set of the NETWORK_ERROR branch (lines 110-113). -/
def networkPhrases : List String :=
  ["timeout", "connection", "network", "socket", "disconnected",
   "cannot connect", "connection lost", "timed out"]

/-- Keyword set of the API_ERROR branch (lines 117-121). -/
def apiPhrases : List String :=
  ["api error", "request limit", "rate limit", "invalid contract",
   "market data", "permission", "subscription"]

/-- Keyword set of the VALIDATION_ERROR branch (lines 124-128). -/
def validationPhrases : List String :=
  ["validation", "invalid data", "corrupt", "malformed",
   "unexpected format", "data quality"]

/-- `SmartRetryManager.classify_failure`: NO_DATA when `data_received` is
false or a no-data keyword occurs, then network, API and validation keyword
sets in order, else UNKNOWN. -/
def classifyFailure (errorMessage : String) (dataReceived : Bool) : FailureType :=
  let el := lowerStr errorMessage
  if !dataReceived || anyPhrase el noDataPhrases then .NO_DATA
  else if anyPhrase el networkPhrases then .NETWORK_ERROR
  else if anyPhrase el apiPhrases then .API_ERROR
  else if anyPhrase el validationPhrases then .VALIDATION_ERROR
  else .UNKNOWN

/-! ### Smart retry manager state (`smart_retry_manager.py`) -/

/-- `DateRetryInfo` (date and symbol are the key and are kept outside). -/
structure DateRetryInfo where
  retryCount : Nat := 0
  failureType : Option FailureType := none
  errorMessage : String := ""
deriving DecidableEq, Repr

/-- `DateRetryInfo.can_retry`. -/
def DateRetryInfo.canRetry (info : DateRetryInfo) (maxRetries : Nat) : Bool :=
  info.retryCount < maxRetries

/-- `SymbolRetryState`: the streak counter, per-date retry map (an
association list keyed by day number, as Python's dict) and the skip
latch. -/
structure SymbolRetryState where
  consecutiveNoDataDays : Nat := 0
  dateRetries : List (Nat × DateRetryInfo) := []
  shouldSkip : Bool := false
deriving DecidableEq, Repr

/-- The two `failure_handling` configuration knobs of `SmartRetryManager`. -/
structure RetryConfig where
  maxConsecutiveNoDataDays : Nat := 10
  maxRetriesPerDate : Nat := 3
deriving DecidableEq, Repr

/-- Dictionary lookup `state.date_retries.get(d)`. -/
def lookupDate (m : List (Nat × DateRetryInfo)) (d : Nat) : Option DateRetryInfo :=
  (m.find? (fun p => p.1 == d)).map Prod.snd

/-- Dictionary write `state.date_retries[d] = v`. -/
def setDate (m : List (Nat × DateRetryInfo)) (d : Nat) (v : DateRetryInfo) :
    List (Nat × DateRetryInfo) :=
  match m with
  | [] => [(d, v)]
  | p :: rest => if p.1 = d then (d, v) :: rest else p :: setDate rest d v

/-- Dictionary delete `del state.date_retries[d]`. -/
def eraseDate (m : List (Nat × DateRetryInfo)) (d : Nat) :
    List (Nat × DateRetryInfo) :=
  m.filter (fun p => p.1 != d)

/-- `SmartRetryManager.record_failure` (lines 132-196): classify, increment
the date's retry count, and when the classified type is NO_DATA and the
date's budget is exhausted, extend the streak and possibly latch
`should_skip`. Returns the new state and the classified type. -/
def recordFailure (cfg : RetryConfig) (s : SymbolRetryState) (d : Nat)
    (errorMessage : String) (dataReceived : Bool) : SymbolRetryState × FailureType :=
  let ft := classifyFailure errorMessage dataReceived
  let prev := (lookupDate s.dateRetries d).getD {}
  let info : DateRetryInfo :=
    { retryCount := prev.retryCount + 1, failureType := some ft,
      errorMessage := errorMessage }
  let s1 := { s with dateRetries := setDate s.dateRetries d info }
  if ft = FailureType.NO_DATA ∧ cfg.maxRetriesPerDate ≤ info.retryCount then
    let streak := s1.consecutiveNoDataDays + 1
    ({ s1 with
        consecutiveNoDataDays := streak,
        shouldSkip := s1.shouldSkip || decide (cfg.maxConsecutiveNoDataDays ≤ streak) },
     ft)
  else
    (s1, ft)

/-- `SmartRetryManager.record_success` (lines 198-222): zero the streak when
it is positive and drop the date's retry entry. `should_skip` is not
touched. -/
def recordSuccess (s : SymbolRetryState) (d : Nat) : SymbolRetryState :=
  { s with
      consecutiveNoDataDays :=
        if 0 < s.consecutiveNoDataDays then 0 else s.consecutiveNoDataDays,
      dateRetries := eraseDate s.dateRetries d }

/-- `SmartRetryManager.should_skip_symbol` on a present symbol state. -/
def shouldSkipSymbol (s : SymbolRetryState) : Bool :=
  s.shouldSkip

/-- `SmartRetryManager.can_retry_date` on a present symbol state. -/
def canRetryDate (cfg : RetryConfig) (s : SymbolRetryState) (d : Nat) : Bool :=
  match lookupDate s.dateRetries d with
  | none => true
  | some info => info.canRetry cfg.maxRetriesPerDate

/-- The retry count the manager stores for day `d` (0 when no entry). -/
def retryCountOf (s : SymbolRetryState) (d : Nat) : Nat :=
  ((lookupDate s.dateRetries d).getD {}).retryCount

/-- A free operation on one symbol's retry state: what the manager's public
mutators can be asked to do. -/
inductive RetryOp where
  | failure (d : Nat) (msg : String) (dataReceived : Bool)
  | success (d : Nat)
deriving DecidableEq, Repr

/-- Apply one operation to the state. -/
def applyRetryOp (cfg : RetryConfig) (s : SymbolRetryState) : RetryOp → SymbolRetryState
  | .failure d msg received => (recordFailure cfg s d msg received).1
  | .success d => recordSuccess s d

/-- The state after a sequence of operations from the initial (fresh) state. -/
def runRetryOps (cfg : RetryConfig) (ops : List RetryOp) : SymbolRetryState :=
  ops.foldl (applyRetryOp cfg) {}

/-! ### Scheduler's use of the retry manager (`fetcher_job.py`) -/

/-- `DataFetcherJob._process_symbol`, failure branch (lines 437-443): the
scheduler always records a failure as
`record_failure(symbol, date, error_message or "Processing failed",
data_received=False)`. -/
def schedulerRecordFailure (cfg : RetryConfig) (s : SymbolRetryState) (d : Nat)
    (errorMessage : String) : SymbolRetryState × FailureType :=
  recordFailure cfg s d
    (if errorMessage = "" then "Processing failed" else errorMessage) false

/-- One gated per-date step of the scheduler loop (lines 383-443): a date is
attempted only when `can_retry_date` allows it; a successful attempt makes
one `record_success` call, a failed attempt one `record_failure` call (with
the arguments of `schedulerRecordFailure`). -/
inductive SchedOp where
  | attemptFail (d : Nat) (msg : String)
  | attemptOk (d : Nat)
deriving DecidableEq, Repr

/-- Apply one gated scheduler step to the retry state. -/
def schedStep (cfg : RetryConfig) (s : SymbolRetryState) : SchedOp → SymbolRetryState
  | .attemptFail d msg =>
      if canRetryDate cfg s d then (schedulerRecordFailure cfg s d msg).1 else s
  | .attemptOk d =>
      if canRetryDate cfg s d then recordSuccess s d else s

/-- The retry state reached by a sequence of gated scheduler steps. -/
def runSched (cfg : RetryConfig) (ops : List SchedOp) : SymbolRetryState :=
  ops.foldl (schedStep cfg) {}

/-! ### Ledger (`bar_status_manager.py`) -/

/-- `BarStatus` enumeration. -/
inductive BarStatus where
  | COMPLETE
  | EARLY_CLOSE
  | HOLIDAY
  | ERROR
  | PENDING
deriving DecidableEq, Repr

/-- `BarStatusRecord`: one row of `bar_status.csv`.  `date` is a datetime in
minutes since the epoch; bar timestamps themselves are outside this model,
so `lastTimestamp` carries an opaque optional minute value. -/
structure BarStatusRecord where
  date : Nat
  status : BarStatus
  expectedBars : Nat
  actualBars : Nat
  lastTimestamp : Option Nat := none
  errorMessage : Option String := none
  retryCount : Nat := 0
deriving DecidableEq, Repr

/-- The day component `record.date.date()` of a row's datetime. -/
def dayOf (r : BarStatusRecord) : Nat :=
  r.date / 1440

/-- The CSV round trip of one row: `to_dict` writes the date as `YYYY-MM-DD`
(day resolution, read back as midnight) and writes `error_message or ''`,
which `from_dict` reads back as `None` when empty. All other fields
survive unchanged. -/
def toDisk (r : BarStatusRecord) : BarStatusRecord :=
  { r with
      date := r.date / 1440 * 1440,
      errorMessage := r.errorMessage.bind (fun s => if s = "" then none else some s) }

/-- The in-place part of `update_bar_status` (lines 143-151): replace the
first row whose day matches, else append at the end. -/
def upsertList (records : List BarStatusRecord) (r : BarStatusRecord) :
    List BarStatusRecord :=
  match records with
  | [] => [r]
  | x :: rest => if dayOf x = dayOf r then r :: rest else x :: upsertList rest r

/-- Row order used by `existing_records.sort(key=lambda r: r.date)`. -/
def recLE (a b : BarStatusRecord) : Prop :=
  a.date ≤ b.date

instance : DecidableRel recLE :=
  fun a b => inferInstanceAs (Decidable (a.date ≤ b.date))

instance : IsTotal BarStatusRecord recLE :=
  ⟨fun a b => Nat.le_total a.date b.date⟩

instance : IsTrans BarStatusRecord recLE :=
  ⟨fun _ _ _ h h2 => Nat.le_trans h h2⟩

/-- `BarStatusManager.update_bar_status` (lines 126-176) as a transition on
the persisted table: load, replace-or-append, sort ascending by date, write
back through the CSV serialization. -/
def updateBarStatus (records : List BarStatusRecord) (r : BarStatusRecord) :
    List BarStatusRecord :=
  (List.insertionSort recLE (upsertList records r)).map toDisk

/-- The table after a sequence of upserts into an initially absent file
(`load_bar_status` returns `[]` then). -/
def runLedger (ops : List BarStatusRecord) : List BarStatusRecord :=
  ops.foldl updateBarStatus []

/-- The row the ledger keeps for day `d`, if any. -/
def findByDay (records : List BarStatusRecord) (d : Nat) : Option BarStatusRecord :=
  records.find? (fun r => dayOf r == d)

/-- The status the ledger keeps for day `d`, if any. -/
def statusOfDay (records : List BarStatusRecord) (d : Nat) : Option BarStatus :=
  (findByDay records d).map BarStatusRecord.status

/-- `BarStatusManager.get_completed_dates` (lines 231-245): the days whose
row is COMPLETE or EARLY_CLOSE. -/
def completedDays (records : List BarStatusRecord) : List Nat :=
  (records.filter
    (fun r => decide (r.status = BarStatus.COMPLETE ∨ r.status = BarStatus.EARLY_CLOSE))).map dayOf

/-- Well-formedness the ledger file maintains: one row per day, every row is
a fixed point of the CSV round trip, rows sorted ascending by date. -/
def LedgerWF (records : List BarStatusRecord) : Prop :=
  (records.map dayOf).Nodup ∧ (∀ x ∈ records, toDisk x = x) ∧ records.Sorted recLE

/-! ### Date planner (`date_processor.py`, `get_dates_to_process`) -/

/-- Descending order on day numbers (`dates_to_process.sort(reverse=True)`). -/
def descNat (a b : Nat) : Prop :=
  b ≤ a

instance : DecidableRel descNat :=
  fun a b => inferInstanceAs (Decidable (b ≤ a))

instance : IsTotal Nat descNat :=
  ⟨fun a b => Nat.le_total b a⟩

instance : IsTrans Nat descNat :=
  ⟨fun _ _ _ h h2 => Nat.le_trans h2 h⟩

/-- `DateProcessor.get_dates_to_process` (lines 49-94) for a symbol whose
earliest-data query succeeded: `tradingDates` is the calendar's answer for
the range earliest..yesterday; completed days are removed; the remainder is
sorted newest first. -/
def getDatesToProcess (tradingDates : List Nat) (ledger : List BarStatusRecord) :
    List Nat :=
  List.insertionSort descNat
    (tradingDates.filter (fun d => decide (d ∉ completedDays ledger)))

/-! ### Market calendar (`market_calendar.py`) -/

/-- `MarketDayType`. -/
inductive MarketDayType where
  | REGULAR_DAY
  | EARLY_CLOSE_SHORT
  | EARLY_CLOSE_REGULAR
  | HOLIDAY
deriving DecidableEq, Repr

/-- `MarketSchedule` (date string omitted; open/close carried as the trading
minutes computed from them). -/
structure MarketSchedule where
  isTradingDay : Bool
  dayType : MarketDayType
  expectedBars : Nat
  tradingMinutes : Option Nat := none
deriving DecidableEq, Repr

/-- `MarketCalendar.get_market_schedule` (lines 104-171) when the calendar
library is available: `sched` is the exchange schedule for the date, `none`
for an empty schedule (holiday), otherwise the market open and close in
minutes.  `regularDayBars` is `expected_bars_config["regular_day"]`
(390 by default); the holiday count is 0 and the early-close counts are
fixed 210 and 360 in the source. -/
def getMarketSchedule (regularDayBars : Nat) (sched : Option (Nat × Nat)) :
    MarketSchedule :=
  match sched with
  | none =>
      { isTradingDay := false, dayType := .HOLIDAY, expectedBars := 0 }
  | some (mopen, mclose) =>
      let minutes := mclose - mopen
      if minutes ≤ 210 then
        { isTradingDay := true, dayType := .EARLY_CLOSE_SHORT,
          expectedBars := 210, tradingMinutes := some minutes }
      else if minutes ≤ 360 then
        { isTradingDay := true, dayType := .EARLY_CLOSE_REGULAR,
          expectedBars := 360, tradingMinutes := some minutes }
      else
        { isTradingDay := true, dayType := .REGULAR_DAY,
          expectedBars := regularDayBars, tradingMinutes := some minutes }

/-- `MarketCalendar.get_expected_bar_count`. -/
def getExpectedBarCount (regularDayBars : Nat) (sched : Option (Nat × Nat)) : Nat :=
  (getMarketSchedule regularDayBars sched).expectedBars

/-- `IBDataFetcher._determine_status` (fetcher.py lines 435-462): the status
string the fetcher derives from a validated bar count and the day type. -/
def determineStatus (regularDayBars : Nat) (earlyCloseCounts : List Nat)
    (barCount : Nat) (dayType : MarketDayType) : BarStatus :=
  if barCount = 0 then .HOLIDAY
  else if barCount = regularDayBars then .COMPLETE
  else if barCount ∈ earlyCloseCounts then
    if dayType = MarketDayType.EARLY_CLOSE_SHORT ∨
        dayType = MarketDayType.EARLY_CLOSE_REGULAR then .EARLY_CLOSE
    else .ERROR
  else .ERROR

/-! ### Per-date processing and the multi-run trace (`date_processor.py`,
`fetcher_job.py`) -/

/-- The outcome of one `process_date` call for a planned (trading) date, as
the environment decides it: `skipped` stands for a date on which no ledger
write happened (gate refused, shutdown, or a crash before the write);
`ok n` for `fetch_and_validate_day` succeeding with an `n`-row frame
(`n = 0` is the empty-bars short circuit); `fail msg` for the failure
branch. -/
inductive FetchOutcome where
  | skipped
  | ok (barCount : Nat)
  | fail (msg : String)

/-- The ledger write of `DateProcessor.process_date` (lines 119-176) for day
`d`: on success the status is COMPLETE when the bar count equals the
calendar's expected count, EARLY_CLOSE when positive, else HOLIDAY; on
failure an ERROR row with zero actual bars.  `expected` is
`get_expected_bar_count` as a function of the day. -/
def processDateWrite (expected : Nat → Nat) (ledger : List BarStatusRecord)
    (d : Nat) : FetchOutcome → List BarStatusRecord
  | .skipped => ledger
  | .ok n =>
      let e := expected d
      let st : BarStatus :=
        if n = e then .COMPLETE else if 0 < n then .EARLY_CLOSE else .HOLIDAY
      updateBarStatus ledger
        { date := d * 1440, status := st, expectedBars := e, actualBars := n }
  | .fail msg =>
      updateBarStatus ledger
        { date := d * 1440, status := .ERROR, expectedBars := expected d,
          actualBars := 0, errorMessage := some ("Fetch failed: " ++ msg) }

/-- One execution of the scheduler over a symbol: plan from the current
ledger, then process each planned date in order with the outcome the
environment `env` assigns to it. -/
def runOnce (expected : Nat → Nat) (tradingDates : List Nat)
    (env : Nat → FetchOutcome) (ledger : List BarStatusRecord) :
    List BarStatusRecord :=
  (getDatesToProcess tradingDates ledger).foldl
    (fun acc d => processDateWrite expected acc d (env d)) ledger

/-- The ledger after a sequence of executions starting from an absent file. -/
def runTrace (expected : Nat → Nat) (tradingDates : List Nat)
    (envs : List (Nat → FetchOutcome)) : List BarStatusRecord :=
  envs.foldl (fun ledger env => runOnce expected tradingDates env ledger) []

/-! ### Day-level validator (`validation.py`, `bar_validator.py`) -/

/-- One row of the day's tabular input.  Fields are total: pandas NaN cells
are outside this model (the source only hard-fails on them in the quality
check). -/
structure BarRow where
  date : Nat
  openPrice : Int
  highPrice : Int
  lowPrice : Int
  closePrice : Int
  volume : Int
  barCount : Int
deriving DecidableEq, Repr

/-- The day's DataFrame: its column names and its rows.  `pd.DataFrame()`
is `{ cols := [], rows := [] }`. -/
structure DayFrame where
  cols : List String
  rows : List BarRow
deriving DecidableEq, Repr

/-- `ValidationResult` of `bar_validator.py`. -/
structure ValidationResult where
  isValid : Bool
  message : String
  validatedBars : Option Nat := none
  expectedBars : Option Nat := none
deriving DecidableEq, Repr

/-- The required columns of `validate_data_structure`. -/
def requiredColumns : List String :=
  ["date", "open", "high", "low", "close", "volume", "barCount"]

/-- `BarValidator.validate_data_structure`: empty input passes; otherwise
the required columns must be present.  (The dtype check cannot fail in this
model: rows are typed.) -/
def validateDataStructure (df : DayFrame) : ValidationResult :=
  if df.rows.isEmpty then
    { isValid := true, message := "Empty dataset (possible holiday)",
      validatedBars := some 0 }
  else if requiredColumns.any (fun c => decide (c ∉ df.cols)) then
    { isValid := false, message := "Missing required columns" }
  else
    { isValid := true, message := "Data structure validation passed",
      validatedBars := some df.rows.length }

/-- Whether one bar violates a price or volume relationship
(`validate_individual_bars`). -/
def barViolation (b : BarRow) : Bool :=
  b.highPrice < b.lowPrice || b.highPrice < b.openPrice ||
  b.highPrice < b.closePrice || b.lowPrice > b.openPrice ||
  b.lowPrice > b.closePrice ||
  b.openPrice < 0 || b.highPrice < 0 || b.lowPrice < 0 || b.closePrice < 0 ||
  b.volume < 0 || b.barCount < 0

/-- `BarValidator.validate_individual_bars`: valid iff no bar violates the
price and volume relationships (the source aggregates the violations into
an error message; validity is their absence). -/
def validateIndividualBars (df : DayFrame) : ValidationResult :=
  if df.rows.isEmpty then
    { isValid := true, message := "No bars to validate", validatedBars := some 0 }
  else if df.rows.any barViolation then
    { isValid := false, message := "Bar validation errors" }
  else
    { isValid := true, message := "Individual bar validation passed",
      validatedBars := some df.rows.length }

/-- Adjacent timestamps are non-decreasing (`is_monotonic_increasing`). -/
def monoInc : List Nat → Bool
  | [] => true
  | [_] => true
  | a :: b :: t => a ≤ b && monoInc (b :: t)

/-- `DataValidator._validate_time_sequence`: indexing `bar_data['date']` on
a frame without that column raises, and the surrounding handler turns the
exception into an invalid result; otherwise duplicate timestamps fail, then
non-ascending timestamps fail; irregular intervals only warn. -/
def validateTimeSequence (df : DayFrame) : ValidationResult :=
  if "date" ∉ df.cols then
    { isValid := false, message := "Time sequence validation error: date" }
  else
    let dates := df.rows.map BarRow.date
    if ¬ dates.Nodup then
      { isValid := false, message := "Found duplicate timestamps" }
    else if !monoInc dates then
      { isValid := false, message := "Timestamps are not in ascending order" }
    else
      { isValid := true, message := "Time sequence validation passed" }

/-- `DataValidator._validate_market_calendar`: the actual bar count must
equal the schedule's expected count, or be one of the acceptable early
close counts. -/
def validateMarketCalendar (expected : Nat) (earlyCloseCounts : List Nat)
    (df : DayFrame) : ValidationResult :=
  let actual := df.rows.length
  if actual = expected then
    { isValid := true, message := "Bar count validation passed",
      expectedBars := some expected }
  else if actual ∈ earlyCloseCounts then
    { isValid := true, message := "Bar count validation passed (early close)",
      expectedBars := some actual }
  else
    { isValid := false, message := "Bar count mismatch",
      expectedBars := some expected }

/-- `BarValidator.validate_data_quality`: the only hard failure in the
source is missing values in required columns; rows in this model are total,
so the check passes (the remaining quality findings only warn). -/
def validateDataQuality (df : DayFrame) : ValidationResult :=
  if df.rows.isEmpty then
    { isValid := true, message := "No data to validate quality",
      validatedBars := some 0 }
  else
    { isValid := true, message := "Data quality validation passed",
      validatedBars := some df.rows.length }

/-- `DataValidator.validate_bar_data` (lines 88-153): the five checks in
order; the first failure is returned. -/
def validateBarData (expected : Nat) (earlyCloseCounts : List Nat)
    (df : DayFrame) : ValidationResult :=
  let structureResult := validateDataStructure df
  if !structureResult.isValid then structureResult
  else
    let barResult := validateIndividualBars df
    if !barResult.isValid then
      { isValid := false, message := "Bar validation failed",
        validatedBars := some df.rows.length }
    else
      let timeResult := validateTimeSequence df
      if !timeResult.isValid then
        { isValid := false, message := "Time sequence validation failed",
          validatedBars := some df.rows.length }
      else
        let calendarResult := validateMarketCalendar expected earlyCloseCounts df
        if !calendarResult.isValid then
          { isValid := false, message := "Market calendar validation failed",
            validatedBars := some df.rows.length,
            expectedBars := calendarResult.expectedBars }
        else
          let qualityResult := validateDataQuality df
          if !qualityResult.isValid then
            { isValid := false, message := "Data quality validation failed",
              validatedBars := some df.rows.length }
          else
            { isValid := true, message := "All validations passed",
              validatedBars := some df.rows.length,
              expectedBars := calendarResult.expectedBars }

/-! ### Rate limiter (`fetcher.py`, `_enforce_rate_limit`) -/

/-- The fetcher's rate-limit cell `last_request_time` (seconds; 0 at
construction). -/
structure RateLimiterState where
  lastRequestTime : Nat
deriving DecidableEq, Repr

/-- `IBDataFetcher._enforce_rate_limit` (lines 108-118), called at `now`:
sleep the remainder of `rateLimitWait` measured from `lastRequestTime`,
then set `lastRequestTime` to the current time — which is the moment the
request is about to start, not the moment it completes.  Returns the time
the request starts and the new cell. -/
def enforceRateLimit (rateLimitWait : Nat) (s : RateLimiterState) (now : Nat) :
    Nat × RateLimiterState :=
  let elapsed := now - s.lastRequestTime
  let start := if elapsed < rateLimitWait then now + (rateLimitWait - elapsed) else now
  (start, { lastRequestTime := start })

/-! ## Helper lemmas -/

/-- With `data_received=False` the classifier's first branch fires whatever
the message says. -/
theorem classifyFailure_false_eq (msg : String) :
    classifyFailure msg false = FailureType.NO_DATA := rfl

theorem lookupDate_setDate_self (m : List (Nat × DateRetryInfo)) (d : Nat)
    (v : DateRetryInfo) : lookupDate (setDate m d v) d = some v := by
  induction m with
  | nil => simp [setDate, lookupDate]
  | cons p rest ih =>
    by_cases h : p.1 = d
    · simp [setDate, h, lookupDate]
    · simp only [setDate, if_neg h]
      simpa [lookupDate, List.find?_cons_of_neg, h] using ih

theorem lookupDate_setDate_ne (m : List (Nat × DateRetryInfo)) (d d2 : Nat)
    (v : DateRetryInfo) (h : d2 ≠ d) :
    lookupDate (setDate m d v) d2 = lookupDate m d2 := by
  induction m with
  | nil => simp [setDate, lookupDate, Ne.symm h]
  | cons p rest ih =>
    by_cases hp : p.1 = d
    · simp [setDate, hp, lookupDate, Ne.symm h]
    · by_cases hq : p.1 = d2
      · simp [setDate, hp, lookupDate, hq, h]
      · simp only [setDate, if_neg hp]
        simpa [lookupDate, List.find?_cons_of_neg, hq] using ih

theorem lookupDate_eraseDate_self (m : List (Nat × DateRetryInfo)) (d : Nat) :
    lookupDate (eraseDate m d) d = none := by
  have hnone : List.find? (fun p => p.1 == d) (List.filter (fun p => p.1 != d) m)
      = none := by
    rw [List.find?_eq_none]
    intro p hp
    have := (List.mem_filter.mp hp).2
    simp only [bne_iff_ne, ne_eq] at this
    simp [this]
  simp [lookupDate, eraseDate, hnone]

theorem lookupDate_cons_eq (p : Nat × DateRetryInfo)
    (rest : List (Nat × DateRetryInfo)) (d2 : Nat) (hq : p.1 = d2) :
    lookupDate (p :: rest) d2 = some p.2 := by
  have hb : (fun q : Nat × DateRetryInfo => q.1 == d2) p = true := by simpa using hq
  unfold lookupDate
  rw [@List.find?_cons_of_pos _ (fun q : Nat × DateRetryInfo => q.1 == d2) p rest hb]
  rfl

theorem lookupDate_cons_ne (p : Nat × DateRetryInfo)
    (rest : List (Nat × DateRetryInfo)) (d2 : Nat) (hq : ¬ p.1 = d2) :
    lookupDate (p :: rest) d2 = lookupDate rest d2 := by
  have hb : ¬ ((fun q : Nat × DateRetryInfo => q.1 == d2) p = true) := by simpa using hq
  unfold lookupDate
  rw [@List.find?_cons_of_neg _ (fun q : Nat × DateRetryInfo => q.1 == d2) p rest hb]

theorem lookupDate_eraseDate_ne (m : List (Nat × DateRetryInfo)) (d d2 : Nat)
    (h : d2 ≠ d) : lookupDate (eraseDate m d) d2 = lookupDate m d2 := by
  unfold eraseDate
  induction m with
  | nil => rfl
  | cons p rest ih =>
    rw [List.filter_cons]
    by_cases hp : p.1 = d
    · have hf : (p.1 != d) = false := by simp [hp]
      rw [hf]
      simp only [Bool.false_eq_true, if_false]
      rw [ih, lookupDate_cons_ne p rest d2 (by rw [hp]; exact Ne.symm h)]
    · have ht : (p.1 != d) = true := by simp [hp]
      rw [ht]
      simp only [if_true]
      by_cases hq : p.1 = d2
      · rw [lookupDate_cons_eq p _ d2 hq, lookupDate_cons_eq p rest d2 hq]
      · rw [lookupDate_cons_ne p _ d2 hq, lookupDate_cons_ne p rest d2 hq, ih]

theorem retryCountOf_recordFailure_self (cfg : RetryConfig) (s : SymbolRetryState)
    (d : Nat) (msg : String) (received : Bool) :
    retryCountOf (recordFailure cfg s d msg received).1 d = retryCountOf s d + 1 := by
  simp only [recordFailure, retryCountOf]
  split <;> simp [lookupDate_setDate_self]

theorem retryCountOf_recordFailure_ne (cfg : RetryConfig) (s : SymbolRetryState)
    (d d2 : Nat) (msg : String) (received : Bool) (h : d2 ≠ d) :
    retryCountOf (recordFailure cfg s d msg received).1 d2 = retryCountOf s d2 := by
  simp only [recordFailure, retryCountOf]
  split <;> simp [lookupDate_setDate_ne _ _ _ _ h]

theorem retryCountOf_recordSuccess_self (s : SymbolRetryState) (d : Nat) :
    retryCountOf (recordSuccess s d) d = 0 := by
  simp [retryCountOf, recordSuccess, lookupDate_eraseDate_self, DateRetryInfo.retryCount]

theorem retryCountOf_recordSuccess_ne (s : SymbolRetryState) (d d2 : Nat)
    (h : d2 ≠ d) : retryCountOf (recordSuccess s d) d2 = retryCountOf s d2 := by
  simp [retryCountOf, recordSuccess, lookupDate_eraseDate_ne _ _ _ h]

/-- What `can_retry_date = True` means for the stored count: either no
entry exists yet (count 0) or the count is under the budget. -/
theorem canRetryDate_spec (cfg : RetryConfig) (s : SymbolRetryState) (d : Nat)
    (h : canRetryDate cfg s d = true) :
    retryCountOf s d = 0 ∨ retryCountOf s d < cfg.maxRetriesPerDate := by
  unfold canRetryDate at h
  unfold retryCountOf
  cases hl : lookupDate s.dateRetries d with
  | none => left; simp [hl]
  | some info =>
    right
    rw [hl] at h
    simp only [DateRetryInfo.canRetry, decide_eq_true_eq] at h
    simpa [hl] using h

/-! ## C5 — classifier on `data_received = false` -/

/-- C5: for every error message string, classifying a failure with
`data_received = false` yields failure type NO_DATA, regardless of the
message's content (`classify_failure`, lines 100-107). -/
theorem claim5_no_data_regardless_of_message (msg : String) :
    classifyFailure msg false = FailureType.NO_DATA :=
  classifyFailure_false_eq msg

/-! ## C6 — every scheduler-recorded failure classifies as NO_DATA -/

/-- C6: the scheduler's failure branch always calls `record_failure` with
`data_received=False` (`fetcher_job.py` lines 437-443), so the classifier
returns NO_DATA for every scheduler-recorded failure — whatever the message
(60-second timeouts included) — and the symbol's consecutive no-data streak
grows exactly when the failure exhausts the date's retry budget. -/
theorem claim6_scheduler_failures_always_no_data (cfg : RetryConfig)
    (s : SymbolRetryState) (d : Nat) (msg : String) :
    (schedulerRecordFailure cfg s d msg).2 = FailureType.NO_DATA
    ∧ (schedulerRecordFailure cfg s d msg).1.consecutiveNoDataDays
        = (if cfg.maxRetriesPerDate ≤ retryCountOf s d + 1
           then s.consecutiveNoDataDays + 1
           else s.consecutiveNoDataDays) := by
  by_cases hc : cfg.maxRetriesPerDate ≤
      ((lookupDate s.dateRetries d).getD {}).retryCount + 1
  · simp [schedulerRecordFailure, recordFailure, classifyFailure_false_eq,
      retryCountOf, hc]
  · simp [schedulerRecordFailure, recordFailure, classifyFailure_false_eq,
      retryCountOf, hc]

/-! ## C7 — bounded retries under the scheduler's gate -/

theorem schedStep_retryCount_le (cfg : RetryConfig)
    (hpos : 0 < cfg.maxRetriesPerDate) (s : SymbolRetryState) (op : SchedOp)
    (h : ∀ d, retryCountOf s d ≤ cfg.maxRetriesPerDate) :
    ∀ d, retryCountOf (schedStep cfg s op) d ≤ cfg.maxRetriesPerDate := by
  intro d
  cases op with
  | attemptOk d2 =>
    simp only [schedStep]
    split
    · by_cases hd : d = d2
      · subst hd
        rw [retryCountOf_recordSuccess_self]
        exact Nat.zero_le _
      · rw [retryCountOf_recordSuccess_ne _ _ _ hd]
        exact h d
    · exact h d
  | attemptFail d2 msg =>
    simp only [schedStep]
    split
    · rename_i hg
      by_cases hd : d = d2
      · subst hd
        unfold schedulerRecordFailure
        rw [retryCountOf_recordFailure_self]
        rcases canRetryDate_spec cfg s d hg with h0 | hlt
        · rw [h0]; exact hpos
        · exact hlt
      · unfold schedulerRecordFailure
        rw [retryCountOf_recordFailure_ne _ _ _ _ _ _ hd]
        exact h d
    · exact h d

theorem runSched_retryCount_le (cfg : RetryConfig)
    (hpos : 0 < cfg.maxRetriesPerDate) :
    ∀ (ops : List SchedOp) (s : SymbolRetryState),
      (∀ d, retryCountOf s d ≤ cfg.maxRetriesPerDate) →
      ∀ d, retryCountOf (ops.foldl (schedStep cfg) s) d ≤ cfg.maxRetriesPerDate := by
  intro ops
  induction ops with
  | nil => intro s h d; exact h d
  | cons op rest ih =>
    intro s h d
    rw [List.foldl_cons]
    exact ih (schedStep cfg s op) (schedStep_retryCount_le cfg hpos s op h) d

/-- C7: in every state reached by a scheduler loop in which each date is
attempted only when `can_retry_date` allows it and each attempt makes at
most one `record_failure` call, the stored `retry_count` of every date
stays at most `maxRetriesPerDate` (for any positive budget; a first attempt
bypasses the gate because an absent entry means "no previous failures"). -/
theorem claim7_bounded_retries (cfg : RetryConfig)
    (hpos : 0 < cfg.maxRetriesPerDate) (ops : List SchedOp) (d : Nat) :
    retryCountOf (runSched cfg ops) d ≤ cfg.maxRetriesPerDate := by
  unfold runSched
  exact runSched_retryCount_le cfg hpos ops {} (fun _ => Nat.zero_le _) d

/-- C7 witness: four gated attempts on one date under the default budget of
three leave a stored count of at most three. -/
theorem claim7_bounded_retries_witness :
    retryCountOf
      (runSched {}
        [SchedOp.attemptFail 0 "timeout", SchedOp.attemptFail 0 "timeout",
         SchedOp.attemptFail 0 "timeout", SchedOp.attemptFail 0 "timeout"]) 0
      ≤ ({} : RetryConfig).maxRetriesPerDate :=
  claim7_bounded_retries {} (by decide) _ 0

/-! ## C1 — streak reset, latch monotone, and what the latch implies -/

theorem recordSuccess_streak_zero (s : SymbolRetryState) (d : Nat) :
    (recordSuccess s d).consecutiveNoDataDays = 0 := by
  simp only [recordSuccess]
  split <;> omega

theorem applyRetryOp_shouldSkip_mono (cfg : RetryConfig) (s : SymbolRetryState)
    (op : RetryOp) (h : s.shouldSkip = true) :
    (applyRetryOp cfg s op).shouldSkip = true := by
  cases op with
  | success d => simpa [applyRetryOp, recordSuccess] using h
  | failure d msg received =>
    simp only [applyRetryOp, recordFailure]
    split <;> simp [h]

theorem applyRetryOp_skip_cases (cfg : RetryConfig) (s : SymbolRetryState)
    (op : RetryOp) (h : (applyRetryOp cfg s op).shouldSkip = true) :
    s.shouldSkip = true
    ∨ cfg.maxConsecutiveNoDataDays ≤ (applyRetryOp cfg s op).consecutiveNoDataDays := by
  cases op with
  | success d =>
    left
    simpa [applyRetryOp, recordSuccess] using h
  | failure d msg received =>
    simp only [applyRetryOp, recordFailure] at h ⊢
    split at h <;> rename_i hc
    · rw [if_pos hc]
      simp only [Bool.or_eq_true, decide_eq_true_eq] at h
      rcases h with h1 | h1
      · exact Or.inl h1
      · exact Or.inr h1
    · rw [if_neg hc]
      exact Or.inl h

theorem foldl_skip_origin (cfg : RetryConfig) :
    ∀ (ops : List RetryOp) (s : SymbolRetryState),
      (ops.foldl (applyRetryOp cfg) s).shouldSkip = true →
      s.shouldSkip = true
      ∨ ∃ n, cfg.maxConsecutiveNoDataDays ≤
          ((ops.take n).foldl (applyRetryOp cfg) s).consecutiveNoDataDays := by
  intro ops
  induction ops with
  | nil => intro s h; exact Or.inl h
  | cons op rest ih =>
    intro s h
    rw [List.foldl_cons] at h
    rcases ih (applyRetryOp cfg s op) h with h1 | ⟨n, hn⟩
    · rcases applyRetryOp_skip_cases cfg s op h1 with h2 | h2
      · exact Or.inl h2
      · exact Or.inr ⟨1, by simpa using h2⟩
    · refine Or.inr ⟨n + 1, ?_⟩
      simpa [List.take_succ_cons, List.foldl_cons] using hn

theorem foldl_shouldSkip_mono (cfg : RetryConfig) :
    ∀ (ops : List RetryOp) (s : SymbolRetryState), s.shouldSkip = true →
      (ops.foldl (applyRetryOp cfg) s).shouldSkip = true := by
  intro ops
  induction ops with
  | nil => intro s h; exact h
  | cons op rest ih =>
    intro s h
    rw [List.foldl_cons]
    exact ih _ (applyRetryOp_shouldSkip_mono cfg s op h)

/-- C1 (amended): any `record_success` zeroes `consecutive_no_data_days`;
`should_skip` once true stays true under every later sequence of
operations; and when a reachable state has `should_skip = true`, the streak
reached `maxConsecutiveNoDataDays` at some earlier point of the operation
sequence — but need not still be at that level, because a later
`record_success` resets the streak without clearing the latch. -/
theorem claim1_streak_latch_semantics (cfg : RetryConfig) (s : SymbolRetryState)
    (d : Nat) (ops more : List RetryOp) :
    (recordSuccess s d).consecutiveNoDataDays = 0
    ∧ ((runRetryOps cfg ops).shouldSkip = true →
        (runRetryOps cfg (ops ++ more)).shouldSkip = true)
    ∧ ((runRetryOps cfg ops).shouldSkip = true →
        ∃ n, cfg.maxConsecutiveNoDataDays ≤
          (runRetryOps cfg (ops.take n)).consecutiveNoDataDays) := by
  refine ⟨recordSuccess_streak_zero s d, ?_, ?_⟩
  · intro h
    unfold runRetryOps at h ⊢
    rw [List.foldl_append]
    exact foldl_shouldSkip_mono cfg more _ h
  · intro h
    rcases foldl_skip_origin cfg ops {} h with h1 | h1
    · simp at h1
    · exact h1

/-- C1 counterexample: after twelve no-data failures on one date (which
latch `should_skip` at a streak of ten) followed by one success, the state
has `should_skip = true` while the streak is 0 — so the claimed invariant
`should_skip ⇒ consecutive_no_data_days ≥ maxConsecutiveNoDataDays` fails
in a reachable state. -/
theorem claim1_counterexample :
    (runRetryOps {}
        (List.replicate 12 (RetryOp.failure 0 "" false)
          ++ [RetryOp.success 0])).shouldSkip = true
    ∧ (runRetryOps {}
        (List.replicate 12 (RetryOp.failure 0 "" false)
          ++ [RetryOp.success 0])).consecutiveNoDataDays = 0
    ∧ ¬ (({} : RetryConfig).maxConsecutiveNoDataDays ≤
        (runRetryOps {}
          (List.replicate 12 (RetryOp.failure 0 "" false)
            ++ [RetryOp.success 0])).consecutiveNoDataDays) := by decide

/-! ## C10 — the rate limiter measures from request start, not completion -/

/-- C10 evaluation at the failing trace: the fetcher sets
`last_request_time` at the end of `_enforce_rate_limit`, i.e. when the
request is about to start.  With the first request issued at t=10 and
taking 30 seconds (completion t=40), the second `_enforce_rate_limit` call
at t=40 waits nothing: the second request starts 0 seconds after the first
completes, not ≥ 10. -/
theorem claim10_rate_limit_gap_zero :
    (enforceRateLimit 10
        (enforceRateLimit 10 { lastRequestTime := 0 } 0).2
        ((enforceRateLimit 10 { lastRequestTime := 0 } 0).1 + 30)).1
      = (enforceRateLimit 10 { lastRequestTime := 0 } 0).1 + 30
    ∧ ¬ (10 ≤
        (enforceRateLimit 10
            (enforceRateLimit 10 { lastRequestTime := 0 } 0).2
            ((enforceRateLimit 10 { lastRequestTime := 0 } 0).1 + 30)).1
          - ((enforceRateLimit 10 { lastRequestTime := 0 } 0).1 + 30)) := by decide

/-! ## Ledger lemmas (C8, reused by C2, C3, C4) -/

theorem dayOf_toDisk (r : BarStatusRecord) : dayOf (toDisk r) = dayOf r := by
  have h1440 : ∀ n : Nat, n * 1440 / 1440 = n := fun n => by omega
  simp [dayOf, toDisk, h1440]

theorem eMsg_bind_idem (o : Option String) :
    ((o.bind (fun s => if s = "" then none else some s)).bind
        (fun s => if s = "" then none else some s))
      = o.bind (fun s => if s = "" then none else some s) := by
  cases o with
  | none => rfl
  | some s => by_cases hs : s = "" <;> simp [hs]

theorem toDisk_idem (r : BarStatusRecord) : toDisk (toDisk r) = toDisk r := by
  have h1440 : ∀ n : Nat, n * 1440 / 1440 = n := fun n => by omega
  cases r
  simp [toDisk, h1440, eMsg_bind_idem]

theorem mem_upsertList {x r : BarStatusRecord} :
    ∀ {L : List BarStatusRecord}, x ∈ upsertList L r → x = r ∨ x ∈ L := by
  intro L
  induction L with
  | nil =>
    intro h
    simp only [upsertList, List.mem_singleton] at h
    exact Or.inl h
  | cons y rest ih =>
    intro h
    by_cases hy : dayOf y = dayOf r
    · simp only [upsertList, if_pos hy] at h
      rcases List.mem_cons.mp h with h1 | h1
      · exact Or.inl h1
      · exact Or.inr (List.mem_cons_of_mem _ h1)
    · simp only [upsertList, if_neg hy] at h
      rcases List.mem_cons.mp h with h1 | h1
      · exact Or.inr (h1 ▸ List.mem_cons_self _ _)
      · rcases ih h1 with h2 | h2
        · exact Or.inl h2
        · exact Or.inr (List.mem_cons_of_mem _ h2)

theorem self_mem_upsertList (L : List BarStatusRecord) (r : BarStatusRecord) :
    r ∈ upsertList L r := by
  induction L with
  | nil => simp [upsertList]
  | cons y rest ih =>
    by_cases hy : dayOf y = dayOf r
    · simp [upsertList, hy]
    · simp only [upsertList, if_neg hy]
      exact List.mem_cons_of_mem _ ih

theorem mem_upsertList_of_ne {x : BarStatusRecord} (r : BarStatusRecord) :
    ∀ {L : List BarStatusRecord}, x ∈ L → dayOf x ≠ dayOf r →
      x ∈ upsertList L r := by
  intro L
  induction L with
  | nil => intro h _; simp at h
  | cons y rest ih =>
    intro h hne
    by_cases hy : dayOf y = dayOf r
    · simp only [upsertList, if_pos hy]
      rcases List.mem_cons.mp h with h1 | h1
      · exact absurd (by rw [h1]; exact hy) hne
      · exact List.mem_cons_of_mem _ h1
    · simp only [upsertList, if_neg hy]
      rcases List.mem_cons.mp h with h1 | h1
      · exact h1 ▸ List.mem_cons_self _ _
      · exact List.mem_cons_of_mem _ (ih h1 hne)

theorem days_upsertList_nodup {L : List BarStatusRecord} (r : BarStatusRecord)
    (h : (L.map dayOf).Nodup) : ((upsertList L r).map dayOf).Nodup := by
  induction L with
  | nil => simp [upsertList]
  | cons y rest ih =>
    simp only [List.map_cons, List.nodup_cons] at h
    obtain ⟨hy_notin, hrest⟩ := h
    by_cases hy : dayOf y = dayOf r
    · simp only [upsertList, if_pos hy, List.map_cons, List.nodup_cons]
      refine ⟨?_, hrest⟩
      rw [← hy]
      exact hy_notin
    · simp only [upsertList, if_neg hy, List.map_cons, List.nodup_cons]
      refine ⟨?_, ih hrest⟩
      intro hmem
      rcases List.mem_map.mp hmem with ⟨x, hx, hxd⟩
      rcases mem_upsertList hx with h1 | h1
      · exact hy (by rw [← hxd, h1])
      · exact hy_notin (List.mem_map.mpr ⟨x, h1, hxd⟩)

theorem sorted_map_toDisk {L : List BarStatusRecord} (h : L.Sorted recLE) :
    (L.map toDisk).Sorted recLE := by
  refine List.Pairwise.map toDisk ?_ h
  intro a b hab
  unfold recLE at hab ⊢
  unfold toDisk
  exact Nat.mul_le_mul_right _ (Nat.div_le_div_right hab)

theorem updateBarStatus_wf {L : List BarStatusRecord} (r : BarStatusRecord)
    (h : LedgerWF L) : LedgerWF (updateBarStatus L r) := by
  obtain ⟨hnd, hfix, hsort⟩ := h
  refine ⟨?_, ?_, ?_⟩
  · have h1 : ((upsertList L r).map dayOf).Nodup := days_upsertList_nodup r hnd
    have h2 : ((List.insertionSort recLE (upsertList L r)).map dayOf).Nodup := by
      refine (List.Perm.nodup_iff ?_).mpr h1
      exact (List.perm_insertionSort recLE (upsertList L r)).map dayOf
    unfold updateBarStatus
    rw [List.map_map]
    rw [show dayOf ∘ toDisk = dayOf from funext dayOf_toDisk]
    exact h2
  · intro x hx
    unfold updateBarStatus at hx
    rcases List.mem_map.mp hx with ⟨y, _, rfl⟩
    exact toDisk_idem y
  · unfold updateBarStatus
    exact sorted_map_toDisk (List.sorted_insertionSort recLE (upsertList L r))

theorem findByDay_some {L : List BarStatusRecord} {d : Nat} {x : BarStatusRecord}
    (h : findByDay L d = some x) : x ∈ L ∧ dayOf x = d := by
  unfold findByDay at h
  refine ⟨List.mem_of_find?_eq_some h, ?_⟩
  have := List.find?_some h
  simpa using this

theorem findByDay_eq_some_of_nodup {L : List BarStatusRecord} {d : Nat}
    {x : BarStatusRecord} (hnd : (L.map dayOf).Nodup) (hx : x ∈ L)
    (hd : dayOf x = d) : findByDay L d = some x := by
  induction L with
  | nil => simp at hx
  | cons y rest ih =>
    simp only [List.map_cons, List.nodup_cons] at hnd
    obtain ⟨hy_notin, hrest⟩ := hnd
    by_cases hy : dayOf y = d
    · have hfind : findByDay (y :: rest) d = some y := by
        unfold findByDay
        rw [@List.find?_cons_of_pos _ (fun q => dayOf q == d) y rest (by simpa using hy)]
      rcases List.mem_cons.mp hx with h1 | h1
      · rw [hfind, h1]
      · exact absurd (List.mem_map.mpr ⟨x, h1, hd.trans hy.symm⟩) hy_notin
    · have hfind : findByDay (y :: rest) d = findByDay rest d := by
        unfold findByDay
        rw [@List.find?_cons_of_neg _ (fun q => dayOf q == d) y rest (by simpa using hy)]
      rcases List.mem_cons.mp hx with h1 | h1
      · exact absurd (by rw [← h1]; exact hd) hy
      · rw [hfind]
        exact ih hrest h1

theorem findByDay_eq_none {L : List BarStatusRecord} {d : Nat}
    (h : ∀ x ∈ L, dayOf x ≠ d) : findByDay L d = none := by
  unfold findByDay
  rw [List.find?_eq_none]
  intro x hx
  simpa using h x hx

theorem findByDay_none_mem {L : List BarStatusRecord} {d : Nat}
    (h : findByDay L d = none) : ∀ x ∈ L, dayOf x ≠ d := by
  unfold findByDay at h
  intro x hx
  have := List.find?_eq_none.mp h x hx
  simpa using this

theorem findByDay_updateBarStatus {L : List BarStatusRecord} (r : BarStatusRecord)
    (hwf : LedgerWF L) (d : Nat) :
    findByDay (updateBarStatus L r) d
      = if dayOf r = d then some (toDisk r) else findByDay L d := by
  obtain ⟨hnd2, -, -⟩ := updateBarStatus_wf r hwf
  obtain ⟨hnd, hfix, -⟩ := hwf
  by_cases hd : dayOf r = d
  · rw [if_pos hd]
    refine findByDay_eq_some_of_nodup hnd2 ?_ (by rw [dayOf_toDisk]; exact hd)
    unfold updateBarStatus
    exact List.mem_map.mpr
      ⟨r, (List.mem_insertionSort recLE).mpr (self_mem_upsertList L r), rfl⟩
  · rw [if_neg hd]
    cases hfind : findByDay L d with
    | some x =>
      obtain ⟨hxL, hxd⟩ := findByDay_some hfind
      have hne : dayOf x ≠ dayOf r := by
        intro e
        exact hd (by rw [← e]; exact hxd)
      refine findByDay_eq_some_of_nodup hnd2 ?_ hxd
      unfold updateBarStatus
      exact List.mem_map.mpr
        ⟨x, (List.mem_insertionSort recLE).mpr (mem_upsertList_of_ne r hxL hne),
          hfix x hxL⟩
    | none =>
      refine findByDay_eq_none ?_
      intro z hz
      unfold updateBarStatus at hz
      rcases List.mem_map.mp hz with ⟨y, hy, rfl⟩
      rw [dayOf_toDisk]
      have hy2 : y ∈ upsertList L r := (List.mem_insertionSort recLE).mp hy
      rcases mem_upsertList hy2 with h1 | h1
      · rw [h1]
        exact hd
      · exact findByDay_none_mem hfind y h1

theorem foldl_updateBarStatus_wf :
    ∀ (ops : List BarStatusRecord) (L : List BarStatusRecord), LedgerWF L →
      LedgerWF (ops.foldl updateBarStatus L) := by
  intro ops
  induction ops with
  | nil => intro L h; exact h
  | cons r rest ih =>
    intro L h
    rw [List.foldl_cons]
    exact ih _ (updateBarStatus_wf r h)

theorem runLedger_wf (ops : List BarStatusRecord) : LedgerWF (runLedger ops) := by
  unfold runLedger
  exact foldl_updateBarStatus_wf ops [] ⟨by simp, by simp, List.sorted_nil⟩

theorem runLedger_findByDay (ops : List BarStatusRecord) (d : Nat) :
    findByDay (runLedger ops) d
      = ((ops.filter (fun r => decide (dayOf r = d))).getLast?).map toDisk := by
  induction ops using List.reverseRecOn with
  | nil => rfl
  | append_singleton ops r ih =>
    have hrun : runLedger (ops ++ [r]) = updateBarStatus (runLedger ops) r := by
      unfold runLedger
      rw [List.foldl_append, List.foldl_cons, List.foldl_nil]
    rw [hrun, findByDay_updateBarStatus r (runLedger_wf ops) d, List.filter_append]
    by_cases hd : dayOf r = d
    · rw [if_pos hd]
      have hone : List.filter (fun r => decide (dayOf r = d)) [r] = [r] := by
        simp [hd]
      rw [hone, List.getLast?_concat]
      rfl
    · rw [if_neg hd]
      have hzero : List.filter (fun r => decide (dayOf r = d)) [r] = [] := by
        simp [hd]
      rw [hzero, List.append_nil]
      exact ih

/-! ## C8 — the ledger is an ordered-by-date projection of a keyed map -/

/-- C8: after any sequence of upserts starting from an empty ledger, the
loaded table is sorted ascending by date with exactly one row per calendar
date, and the row kept for each date is the most recently upserted record
whose date-component matches at day resolution — as the CSV persists it
(date serialized at day resolution, empty error messages read back as
absent). -/
theorem claim8_upsert_keyed_map (ops : List BarStatusRecord) :
    (runLedger ops).Sorted recLE
    ∧ ((runLedger ops).map dayOf).Nodup
    ∧ ∀ d, findByDay (runLedger ops) d
        = ((ops.filter (fun r => decide (dayOf r = d))).getLast?).map toDisk := by
  obtain ⟨hnd, -, hsort⟩ := runLedger_wf ops
  exact ⟨hsort, hnd, fun d => runLedger_findByDay ops d⟩

/-! ## C4 — the planner's work list -/

/-- C4: the planner's work list for a symbol is exactly the calendar's
trading dates (earliest-data date through yesterday) minus the days whose
ledger row is COMPLETE or EARLY_CLOSE — HOLIDAY and ERROR rows are not
removed — sorted strictly newest to oldest; and when every trading date is
already completed, the planner returns the empty list (idempotent second
run). The hypothesis that trading dates are pairwise distinct is what the
calendar library's `valid_days` guarantees. -/
theorem claim4_planner_work_list (tradingDates : List Nat)
    (ledger : List BarStatusRecord) (hnd : tradingDates.Nodup) :
    (∀ d, d ∈ getDatesToProcess tradingDates ledger
        ↔ (d ∈ tradingDates ∧ d ∉ completedDays ledger))
    ∧ (getDatesToProcess tradingDates ledger).Sorted (fun a b => b < a)
    ∧ ((∀ d ∈ tradingDates, d ∈ completedDays ledger) →
        getDatesToProcess tradingDates ledger = []) := by
  refine ⟨?_, ?_, ?_⟩
  · intro d
    unfold getDatesToProcess
    rw [List.mem_insertionSort, List.mem_filter]
    simp
  · unfold getDatesToProcess
    have hnd2 : (tradingDates.filter
        (fun d => decide (d ∉ completedDays ledger))).Nodup := hnd.filter _
    have hsorted := List.sorted_insertionSort descNat
      (tradingDates.filter (fun d => decide (d ∉ completedDays ledger)))
    have hnd3 : (List.insertionSort descNat
        (tradingDates.filter (fun d => decide (d ∉ completedDays ledger)))).Nodup :=
      (List.Perm.nodup_iff (List.perm_insertionSort descNat _)).mpr hnd2
    have hand := List.Pairwise.and hsorted hnd3
    refine hand.imp ?_
    rintro a b ⟨h1, h2⟩
    exact lt_of_le_of_ne h1 (Ne.symm h2)
  · intro hall
    unfold getDatesToProcess
    have hnil : tradingDates.filter
        (fun d => decide (d ∉ completedDays ledger)) = [] := by
      rw [List.filter_eq_nil_iff]
      intro d hd
      simp [hall d hd]
    rw [hnil]
    rfl

/-- C4 witness: with trading days 3 and 5 and a ledger completing day 5,
membership of day 3 in the work list is characterized as the theorem
states. -/
theorem claim4_planner_work_list_witness :
    3 ∈ getDatesToProcess [3, 5]
        [{ date := 5 * 1440, status := BarStatus.COMPLETE, expectedBars := 390,
           actualBars := 390 }]
      ↔ (3 ∈ [3, 5] ∧ 3 ∉ completedDays
        [{ date := 5 * 1440, status := BarStatus.COMPLETE, expectedBars := 390,
           actualBars := 390 }]) :=
  (claim4_planner_work_list _ _ (by decide)).1 3

/-! ## Process / trace lemmas (C2, C3) -/

theorem day_roundtrip (d : Nat) : d * 1440 / 1440 = d := by omega

theorem findByDay_updateBarStatus_ne {L : List BarStatusRecord}
    (r : BarStatusRecord) (hwf : LedgerWF L) {d : Nat} (h : dayOf r ≠ d) :
    findByDay (updateBarStatus L r) d = findByDay L d := by
  rw [findByDay_updateBarStatus r hwf, if_neg h]

theorem processDateWrite_wf (E : Nat → Nat) {L : List BarStatusRecord}
    (d : Nat) (o : FetchOutcome) (h : LedgerWF L) :
    LedgerWF (processDateWrite E L d o) := by
  cases o with
  | skipped => exact h
  | ok n => exact updateBarStatus_wf _ h
  | fail msg => exact updateBarStatus_wf _ h

theorem processDateWrite_findByDay_ne (E : Nat → Nat) {L : List BarStatusRecord}
    {d2 d : Nat} (hwf : LedgerWF L) (hne : d2 ≠ d) (o : FetchOutcome) :
    findByDay (processDateWrite E L d2 o) d = findByDay L d := by
  cases o with
  | skipped => rfl
  | ok n =>
    exact findByDay_updateBarStatus_ne _ hwf (by simp [dayOf, day_roundtrip, hne])
  | fail msg =>
    exact findByDay_updateBarStatus_ne _ hwf (by simp [dayOf, day_roundtrip, hne])

theorem foldl_processDateWrite_wf (E : Nat → Nat) (env : Nat → FetchOutcome) :
    ∀ (ds : List Nat) (L : List BarStatusRecord), LedgerWF L →
      LedgerWF (ds.foldl (fun acc d => processDateWrite E acc d (env d)) L) := by
  intro ds
  induction ds with
  | nil => intro L h; exact h
  | cons d2 rest ih =>
    intro L h
    rw [List.foldl_cons]
    exact ih _ (processDateWrite_wf E d2 (env d2) h)

theorem foldl_processDateWrite_findByDay (E : Nat → Nat)
    (env : Nat → FetchOutcome) {d : Nat} :
    ∀ (ds : List Nat) (L : List BarStatusRecord), LedgerWF L → d ∉ ds →
      findByDay (ds.foldl (fun acc d2 => processDateWrite E acc d2 (env d2)) L) d
        = findByDay L d := by
  intro ds
  induction ds with
  | nil => intro L _ _; rfl
  | cons d2 rest ih =>
    intro L hwf hnotin
    rw [List.foldl_cons]
    have hne : d2 ≠ d := fun e => hnotin (e ▸ List.mem_cons_self _ _)
    rw [ih _ (processDateWrite_wf E d2 (env d2) hwf)
        (fun hmem => hnotin (List.mem_cons_of_mem _ hmem))]
    exact processDateWrite_findByDay_ne E hwf hne (env d2)

theorem mem_completedDays_of_findByDay {L : List BarStatusRecord} {d : Nat}
    {r : BarStatusRecord} (h : findByDay L d = some r)
    (hst : r.status = BarStatus.COMPLETE ∨ r.status = BarStatus.EARLY_CLOSE) :
    d ∈ completedDays L := by
  obtain ⟨hmem, hday⟩ := findByDay_some h
  unfold completedDays
  exact List.mem_map.mpr ⟨r, List.mem_filter.mpr ⟨hmem, by simpa using hst⟩, hday⟩

theorem not_mem_planner_of_completed {T : List Nat} {L : List BarStatusRecord}
    {d : Nat} (h : d ∈ completedDays L) : d ∉ getDatesToProcess T L := by
  unfold getDatesToProcess
  rw [List.mem_insertionSort, List.mem_filter]
  rintro ⟨-, hdec⟩
  simp at hdec
  exact hdec h

theorem runOnce_wf (E : Nat → Nat) (T : List Nat) (env : Nat → FetchOutcome)
    {L : List BarStatusRecord} (hwf : LedgerWF L) : LedgerWF (runOnce E T env L) :=
  foldl_processDateWrite_wf E env _ L hwf

theorem runOnce_preserves_completed (E : Nat → Nat) (T : List Nat)
    (env : Nat → FetchOutcome) {L : List BarStatusRecord} (hwf : LedgerWF L)
    {d : Nat} (hc : d ∈ completedDays L) :
    findByDay (runOnce E T env L) d = findByDay L d :=
  foldl_processDateWrite_findByDay E env _ L hwf (not_mem_planner_of_completed hc)

theorem runs_preserve_terminal (E : Nat → Nat) (T : List Nat) :
    ∀ (envs2 : List (Nat → FetchOutcome)) (L : List BarStatusRecord),
      LedgerWF L → ∀ {d : Nat} {r : BarStatusRecord}, findByDay L d = some r →
      (r.status = BarStatus.COMPLETE ∨ r.status = BarStatus.EARLY_CLOSE) →
      findByDay (envs2.foldl (fun acc env => runOnce E T env acc) L) d
        = findByDay L d := by
  intro envs2
  induction envs2 with
  | nil => intro L _ d r _ _; rfl
  | cons env rest ih =>
    intro L hwf d r hfind hst
    rw [List.foldl_cons]
    have hc : d ∈ completedDays L := mem_completedDays_of_findByDay hfind hst
    have hpres := runOnce_preserves_completed E T env hwf hc
    rw [ih (runOnce E T env L) (runOnce_wf E T env hwf)
        (by rw [hpres]; exact hfind) hst, hpres]

theorem runTrace_wf (E : Nat → Nat) (T : List Nat)
    (envs : List (Nat → FetchOutcome)) : LedgerWF (runTrace E T envs) := by
  unfold runTrace
  have hstep : ∀ (es : List (Nat → FetchOutcome)) (L : List BarStatusRecord),
      LedgerWF L → LedgerWF (es.foldl (fun acc env => runOnce E T env acc) L) := by
    intro es
    induction es with
    | nil => intro L h; exact h
    | cons env rest ih =>
      intro L h
      rw [List.foldl_cons]
      exact ih _ (runOnce_wf E T env h)
  exact hstep envs [] ⟨by simp, by simp, List.sorted_nil⟩

/-! ## C3 — which terminal statuses the ledger preserves -/

/-- C3 (amended): a ledger row that has reached COMPLETE or EARLY_CLOSE is
never written again — those days are removed from every later plan — so it
cannot regress to ERROR. A HOLIDAY row, however, is re-planned (only
COMPLETE and EARLY_CLOSE count as completed) and can be overwritten by
ERROR in a later execution, as the counterexample shows. -/
theorem claim3_terminal_rows_stable (E : Nat → Nat) (T : List Nat)
    (envs envs2 : List (Nat → FetchOutcome)) (d : Nat)
    (h : statusOfDay (runTrace E T envs) d = some BarStatus.COMPLETE
        ∨ statusOfDay (runTrace E T envs) d = some BarStatus.EARLY_CLOSE) :
    statusOfDay (runTrace E T (envs ++ envs2)) d
      = statusOfDay (runTrace E T envs) d := by
  have hrun : runTrace E T (envs ++ envs2)
      = envs2.foldl (fun acc env => runOnce E T env acc) (runTrace E T envs) := by
    unfold runTrace
    rw [List.foldl_append]
  unfold statusOfDay at h ⊢
  cases hfind : findByDay (runTrace E T envs) d with
  | none =>
    rw [hfind] at h
    simp at h
  | some r =>
    rw [hfind] at h
    have hst : r.status = BarStatus.COMPLETE ∨ r.status = BarStatus.EARLY_CLOSE := by
      rcases h with h | h
      · exact Or.inl (by simpa using h)
      · exact Or.inr (by simpa using h)
    rw [hrun, runs_preserve_terminal E T envs2 (runTrace E T envs)
      (runTrace_wf E T envs) hfind hst, hfind]

/-- C3 witness: a day completed with a full 390-bar fetch keeps its status
through a second execution in which the fetch fails. -/
theorem claim3_terminal_rows_stable_witness :
    statusOfDay (runTrace (fun _ => 390) [0]
        ([fun _ => FetchOutcome.ok 390] ++ [fun _ => FetchOutcome.fail "x"])) 0
      = statusOfDay (runTrace (fun _ => 390) [0] [fun _ => FetchOutcome.ok 390]) 0 :=
  claim3_terminal_rows_stable (fun _ => 390) [0] [fun _ => FetchOutcome.ok 390]
    [fun _ => FetchOutcome.fail "x"] 0 (Or.inl (by decide))

/-- C3 counterexample: a trading day on which the gateway returns an empty
bar list is written HOLIDAY (a terminal status per the claim); the next
execution re-plans that day — HOLIDAY rows are not in `get_completed_dates`
— and a failing fetch overwrites the row with ERROR. The status sequence
of (symbol, day 0) is HOLIDAY, then ERROR: a regression from a terminal
status to ERROR. -/
theorem claim3_counterexample :
    statusOfDay (runTrace (fun _ => 390) [0] [fun _ => FetchOutcome.ok 0]) 0
      = some BarStatus.HOLIDAY
    ∧ statusOfDay (runTrace (fun _ => 390) [0]
        [fun _ => FetchOutcome.ok 0, fun _ => FetchOutcome.fail "fetch error"]) 0
      = some BarStatus.ERROR := by decide

/-! ## C2 — the ledger status written for a 210-bar early close -/

/-- C2 (amended): when the calendar's schedule for the date is an early
close with 210 trading minutes and the fetch succeeds with exactly 210
validated bars, `process_date` writes status COMPLETE (its own comparison
`bar_count == expected_bars` with `expected_bars = 210` fires first), with
expected_bars 210 and actual_bars 210 — even though the fetcher's
`_determine_status` classifies the same bar count as EARLY_CLOSE; that
status string is returned as a message but never written to the ledger. -/
theorem claim2_early_close_written_complete (cal : Nat → Option (Nat × Nat))
    (d mo mc : Nat) (hc : cal d = some (mo, mc)) (hm : mc - mo = 210)
    (L : List BarStatusRecord) :
    processDateWrite (fun x => (getMarketSchedule 390 (cal x)).expectedBars) L d
        (FetchOutcome.ok 210)
      = updateBarStatus L
          { date := d * 1440, status := BarStatus.COMPLETE, expectedBars := 210,
            actualBars := 210 }
    ∧ determineStatus 390 [360, 210] 210
        (getMarketSchedule 390 (cal d)).dayType = BarStatus.EARLY_CLOSE := by
  have hsched : getMarketSchedule 390 (cal d)
      = { isTradingDay := true, dayType := MarketDayType.EARLY_CLOSE_SHORT,
          expectedBars := 210, tradingMinutes := some 210 } := by
    rw [hc]
    simp [getMarketSchedule, hm]
  constructor
  · unfold processDateWrite
    simp [hsched]
  · rw [hsched]
    decide

/-- C2 witness: the amended statement at the concrete early-close schedule
9:30–13:00 (570 to 780 minutes, 210 trading minutes). -/
theorem claim2_early_close_written_complete_witness :
    (processDateWrite
        (fun x => (getMarketSchedule 390 ((fun _ => some (570, 780)) x)).expectedBars)
        [] 0 (FetchOutcome.ok 210)
      = updateBarStatus []
          { date := 0 * 1440, status := BarStatus.COMPLETE, expectedBars := 210,
            actualBars := 210 })
    ∧ determineStatus 390 [360, 210] 210
        (getMarketSchedule 390 ((fun _ => some (570, 780)) 0)).dayType
        = BarStatus.EARLY_CLOSE :=
  claim2_early_close_written_complete (fun _ => some (570, 780)) 0 570 780 rfl rfl []

/-- C2 counterexample: at a 210-minute early-close schedule with 210
validated bars, the row written to the ledger has status COMPLETE, not
EARLY_CLOSE as the claim states. -/
theorem claim2_counterexample :
    statusOfDay
        (processDateWrite
          (fun x => (getMarketSchedule 390 ((fun _ => some (570, 780)) x)).expectedBars)
          [] 0 (FetchOutcome.ok 210)) 0
      = some BarStatus.COMPLETE
    ∧ statusOfDay
        (processDateWrite
          (fun x => (getMarketSchedule 390 ((fun _ => some (570, 780)) x)).expectedBars)
          [] 0 (FetchOutcome.ok 210)) 0
      ≠ some BarStatus.EARLY_CLOSE := by decide

/-! ## C9 — the validator on empty input -/

/-- C9 (amended): the structure check alone accepts empty input, but the
full five-check validation accepts an empty frame only when the frame still
carries its `date` column (an empty `pd.DataFrame()` has no columns, and
the time-sequence check turns the resulting KeyError into an invalid
result) and the calendar expects 0 bars for the date (or 0 is an accepted
early-close count); otherwise the calendar check fails. -/
theorem claim9_empty_input_validation (expected : Nat)
    (earlyCloseCounts : List Nat) (cols : List String) (hdate : "date" ∈ cols) :
    (validateDataStructure { cols := cols, rows := [] }).isValid = true
    ∧ (validateBarData expected earlyCloseCounts { cols := cols, rows := [] }).isValid
        = (decide (0 = expected) || decide (0 ∈ earlyCloseCounts)) := by
  refine ⟨rfl, ?_⟩
  by_cases he : 0 = expected
  · simp [validateBarData, validateDataStructure, validateIndividualBars,
      validateTimeSequence, validateMarketCalendar, validateDataQuality,
      monoInc, hdate, he]
  · by_cases hec : 0 ∈ earlyCloseCounts
    · simp [validateBarData, validateDataStructure, validateIndividualBars,
        validateTimeSequence, validateMarketCalendar, validateDataQuality,
        monoInc, hdate, he, hec]
    · simp [validateBarData, validateDataStructure, validateIndividualBars,
        validateTimeSequence, validateMarketCalendar, validateDataQuality,
        monoInc, hdate, he, hec]

/-- C9 witness: the amended statement at an empty frame that kept the
required columns, on a regular trading day (expected 390). -/
theorem claim9_empty_input_validation_witness :
    (validateDataStructure { cols := requiredColumns, rows := [] }).isValid = true
    ∧ (validateBarData 390 [360, 210]
        { cols := requiredColumns, rows := [] }).isValid
        = (decide ((0 : Nat) = 390) || decide (0 ∈ [360, 210])) :=
  claim9_empty_input_validation 390 [360, 210] requiredColumns (by decide)

/-- C9 counterexample: on the empty frame `pd.DataFrame()` — no columns, no
rows — the full day-level validation returns `isValid = false` (the
time-sequence check's `bar_data['date']` raises and the handler reports an
invalid result), refuting the claim that empty input always validates. -/
theorem claim9_counterexample :
    (validateBarData 390 [360, 210] { cols := [], rows := [] }).isValid = false := by
  decide

end IBDF
